import Mathlib

/-!
Shallow embedding of the jwt-cpp claims codec and validation engine
(src/src/jwt_utils.hpp, src/src/jwt_utils.cpp, src/src/jwt.cpp,
src/src/operator_claims.cpp, src/src/user_claims.cpp, and the
AccountClaims implementation), together with theorems settling the
spec claims about it.

Conventions used throughout:
  * C++ `std::string` / `std::string_view` over bytes is `List Char`
    (all strings handled here are ASCII, so a `Char` is one byte);
    byte vectors (`std::vector<std::uint8_t>`) are `List Nat` with
    values < 256.
  * `x >> k` on non-negative machine integers is `x / 2 ^ k`, and
    `x & 0x3F` / `& 0xFF` are `% 64` / `% 256`.
  * a C++ function that can `throw` returns `Except String α`;
    the message of the matching `std::invalid_argument` is kept.
  * the system clock, the random jti generator and the Ed25519
    signer/verifier (the nkeys library) are external collaborators:
    they enter the embedded functions as explicit arguments.
-/

namespace JwtCpp

set_option maxRecDepth 10000

/-! ## Base64URL codec (anonymous namespace of base64url.hpp) -/

/-- The RFC 4648 base64url alphabet, `alphabet[i]` for `i < 64`. -/
def base64Alphabet : List Char :=
  "ABCDEFGHIJKLMNOPQRSTUVWXYZabcdefghijklmnopqrstuvwxyz0123456789-_".data

/-- Lookup `alphabet[v]`; every call site masks the index with `% 64` (`& 0x3F`),
so the default is never reached. -/
def encodeChar (v : Nat) : Char := base64Alphabet.getD v 'A'

/-- Table `createDecodeLookup()`: the 256-entry table maps each alphabet
character to its 6-bit value, maps `'='` to 0 (padding treated as 0),
and everything else to `0xFF` (invalid).  `List.findIdx` returns the
list length (64) when the character is absent. -/
def decodeLookup (c : Char) : Nat :=
  let i := base64Alphabet.findIdx (fun d => d = c)
  if i < 64 then i else if c = '=' then 0 else 255

/-- Body of the `base64url_encode` loops: the `while (i + 2 < size)`
loop consumes complete 3-byte groups from the front, and the trailing
`if` handles the final 1 or 2 bytes without padding.  `triple` is
`data[i] << 16 | data[i+1] << 8 | data[i+2]` (the shifted bytes occupy
disjoint bit ranges, so `|` is `+`). -/
def encodeChunks : List Nat → List Char
  | [] => []
  | [b0] =>
      let r := b0 * 65536
      [encodeChar (r / 262144 % 64), encodeChar (r / 4096 % 64)]
  | [b0, b1] =>
      let r := b0 * 65536 + b1 * 256
      [encodeChar (r / 262144 % 64), encodeChar (r / 4096 % 64),
       encodeChar (r / 64 % 64)]
  | b0 :: b1 :: b2 :: rest =>
      let t := b0 * 65536 + b1 * 256 + b2
      encodeChar (t / 262144 % 64) :: encodeChar (t / 4096 % 64) ::
      encodeChar (t / 64 % 64) :: encodeChar (t % 64) :: encodeChunks rest

/-- Function `base64url_encode(data)` from base64url.hpp. -/
def base64url_encode (data : List Nat) : List Char :=
  if data = [] then [] else encodeChunks data

/-- The `while (!input.empty() && input.back() == '=') remove_suffix(1)`
loop: drop every trailing `'='`. -/
def stripPadding (l : List Char) : List Char :=
  (l.reverse.dropWhile (fun c => c = '=')).reverse

/-- Body of the `base64url_decode` loops: the `while (i + 3 < size)`
loop consumes complete 4-character groups, then the `remaining` block
handles 1 (error), 2 or 3 leftover characters.  In the 3-character
case the code checks `a`/`b`, emits the first byte, and only then
checks `c` — an invalid third character still aborts the whole call,
which `Except` models by discarding the partial output. -/
def decodeChunks : List Char → Except String (List Nat)
  | [] => .ok []
  | [_] => .error "Invalid Base64 URL input length"
  | [c1, c2] =>
      let a := decodeLookup c1
      let b := decodeLookup c2
      if a = 255 ∨ b = 255 then
        .error "Invalid Base64 URL character in input"
      else
        let pbits := a * 262144 + b * 4096
        .ok [pbits / 65536 % 256]
  | [c1, c2, c3] =>
      let a := decodeLookup c1
      let b := decodeLookup c2
      if a = 255 ∨ b = 255 then
        .error "Invalid Base64 URL character in input"
      else
        let pbits := a * 262144 + b * 4096
        let c := decodeLookup c3
        if c = 255 then
          .error "Invalid Base64 URL character in input"
        else
          .ok [pbits / 65536 % 256, (pbits + c * 64) / 256 % 256]
  | c1 :: c2 :: c3 :: c4 :: rest =>
      let a := decodeLookup c1
      let b := decodeLookup c2
      let c := decodeLookup c3
      let d := decodeLookup c4
      if a = 255 ∨ b = 255 ∨ c = 255 ∨ d = 255 then
        .error "Invalid Base64 URL character in input"
      else
        let quad := a * 262144 + b * 4096 + c * 64 + d
        match decodeChunks rest with
        | .error e => .error e
        | .ok tail =>
            .ok (quad / 65536 % 256 :: quad / 256 % 256 :: quad % 256 :: tail)

/-- Function `base64url_decode(input)` from base64url.hpp. -/
def base64url_decode (input : List Char) : Except String (List Nat) :=
  if input = [] then .ok []
  else
    let stripped := stripPadding input
    if stripped = [] then .ok []
    else decodeChunks stripped

/-! ## Token framing (`parseJwt`, src/src/jwt_utils.cpp) -/

/-- Structure `JwtParts` from jwt_utils.hpp. -/
structure JwtParts where
  header_b64 : List Char
  payload_b64 : List Char
  signature_b64 : List Char
  signing_input : List Char
  deriving Repr, DecidableEq

/-- Model of `s.find('.')` followed by the two `substr` calls around it: returns
the prefix before the first dot and the suffix after it, or `none` when
there is no dot (`npos`). -/
def splitFirstDot : List Char → Option (List Char × List Char)
  | [] => none
  | c :: cs =>
      if c = '.' then some ([], cs)
      else
        match splitFirstDot cs with
        | none => none
        | some (h, t) => some (c :: h, t)

/-- Function `parseJwt(jwt)` from src/src/jwt_utils.cpp: locate the first two
dots, reject a third dot, extract the three substrings, reject empty
segments, and build `signing_input` as `header_b64 + "." + payload_b64`. -/
def parseJwt (jwt : List Char) : Except String JwtParts :=
  match splitFirstDot jwt with
  | none => .error "Invalid JWT format: missing first '.'"
  | some (header_b64, rest1) =>
    match splitFirstDot rest1 with
    | none => .error "Invalid JWT format: missing second '.'"
    | some (payload_b64, signature_b64) =>
      match splitFirstDot signature_b64 with
      | some _ => .error "Invalid JWT format: too many parts"
      | none =>
        if header_b64 = [] then .error "Invalid JWT format: empty header"
        else if payload_b64 = [] then .error "Invalid JWT format: empty payload"
        else if signature_b64 = [] then .error "Invalid JWT format: empty signature"
        else
          .ok { header_b64 := header_b64
                payload_b64 := payload_b64
                signature_b64 := signature_b64
                signing_input := header_b64 ++ '.' :: payload_b64 }

/-- Constant `MAX_JWT_SIZE` from jwt_constants.hpp (10 MiB).  The constant is
declared there but never referenced by `parseJwt`, `decode` or
`verify`. -/
def MAX_JWT_SIZE : Nat := 10 * 1024 * 1024

/-! ## Validation engine (src: validation.cpp, header jwt/validation.hpp) -/

/-- Structure `ValidationResult` from jwt/validation.hpp. -/
structure ValidationResult where
  valid : Bool
  error : Option String
  deriving Repr, DecidableEq

def ValidationResult.success : ValidationResult := ⟨true, none⟩

def ValidationResult.failure (msg : String) : ValidationResult :=
  ⟨false, some msg⟩

/-- The abstract `Claims` interface (jwt/claims.hpp): the virtual
getters the validation engine consumes.  Every variant carries these
fields; `decode*` can populate them arbitrarily, so the validators are
quantified over all field values. -/
structure Claims where
  subject : List Char
  issuer : List Char
  name : Option (List Char)
  issuedAt : Int
  expires : Int
  deriving Repr, DecidableEq

/-- Read `subject[0]` on a string already checked non-empty by the caller;
the `' '` default is unreachable. -/
def firstChar (l : List Char) : Char :=
  match l with
  | [] => ' '
  | c :: _ => c

/-- Helper `getClaimType` (anonymous namespace of validation.cpp): a `switch`
on the first character of the subject. -/
def getClaimType (subject : List Char) : String :=
  match subject with
  | [] => "unknown"
  | c :: _ =>
      if c = 'O' then "operator"
      else if c = 'A' then "account"
      else if c = 'U' then "user"
      else "unknown"

/-- Function `validateExpiration(claims, clockSkewSeconds)` from validation.cpp;
`now` is the `getCurrentTime()` clock read, passed explicitly. -/
def validateExpiration (claims : Claims) (clockSkewSeconds : Int)
    (now : Int) : ValidationResult :=
  let exp := claims.expires
  if exp ≤ 0 then ValidationResult.success
  else
    let expiresWithSkew := exp + clockSkewSeconds
    if now > expiresWithSkew then
      ValidationResult.failure
        ("JWT has expired (exp: " ++ toString exp ++ ", now: " ++
          toString now ++ ")")
    else ValidationResult.success

/-- Function `validateNotBefore(claims, clockSkewSeconds)` from validation.cpp. -/
def validateNotBefore (claims : Claims) (clockSkewSeconds : Int)
    (now : Int) : ValidationResult :=
  let iat := claims.issuedAt
  if iat ≤ 0 then ValidationResult.success
  else
    let issuedWithSkew := iat - clockSkewSeconds
    if now < issuedWithSkew then
      ValidationResult.failure
        ("JWT is not yet valid (iat: " ++ toString iat ++ ", now: " ++
          toString now ++ ")")
    else ValidationResult.success

def chainBrokenMsg (childIssuer parentSubject : List Char) : String :=
  "Issuer chain broken: child issuer '" ++ String.mk childIssuer ++
    "' does not match parent subject '" ++ String.mk parentSubject ++ "'"

/-- Function `validateIssuerChain(child, parent)` from validation.cpp. -/
def validateIssuerChain (child parent : Claims) : ValidationResult :=
  let childIssuer := child.issuer
  let parentSubject := parent.subject
  if childIssuer = [] then
    ValidationResult.failure "Child issuer is empty"
  else if parentSubject = [] then
    ValidationResult.failure "Parent subject is empty"
  else if childIssuer ≠ parentSubject then
    ValidationResult.failure (chainBrokenMsg childIssuer parentSubject)
  else ValidationResult.success

/-- Function `validateKeyHierarchy(child, parent)` from validation.cpp. -/
def validateKeyHierarchy (child parent : Claims) : ValidationResult :=
  let childSubject := child.subject
  let childIssuer := child.issuer
  let parentSubject := parent.subject
  if childSubject = [] ∨ childIssuer = [] ∨ parentSubject = [] then
    ValidationResult.failure "Empty subject or issuer in key hierarchy validation"
  else
    let childType := firstChar childSubject
    let issuerType := firstChar childIssuer
    let parentType := firstChar parentSubject
    if issuerType ≠ parentType then
      ValidationResult.failure
        ("Issuer type mismatch: child issuer type '" ++
          String.mk [issuerType] ++ "' does not match parent type '" ++
          String.mk [parentType] ++ "'")
    else if childType = 'O' ∧ parentType = 'O' then
      if childSubject ≠ parentSubject then
        ValidationResult.failure "Operator must be self-signed"
      else ValidationResult.success
    else if childType = 'A' ∧ parentType = 'O' then
      ValidationResult.success
    else if childType = 'U' ∧ parentType = 'A' then
      ValidationResult.success
    else
      ValidationResult.failure
        ("Invalid hierarchy: " ++ getClaimType childSubject ++
          " cannot be signed by " ++ getClaimType parentSubject)

/-! ## Claims codec (operator_claims.cpp, account_claims.cpp,
user_claims.cpp, jwt_utils.cpp) -/

/-- Constant `JWT_VERSION` from jwt_constants.hpp. -/
def JWT_VERSION : Int := 2

/-- Function `createHeader()` from jwt_utils.cpp: nlohmann::json stores keys in
sorted order, so `{"typ":...,"alg":...}` dumps with `alg` first. -/
def createHeader : List Char :=
  "\x7b\"alg\":\"ed25519-nkey\",\"typ\":\"JWT\"\x7d".data

def hexDigit (n : Nat) : Char :=
  if n < 10 then Char.ofNat (48 + n) else Char.ofNat (87 + n)

/-- nlohmann::json string escaping for the characters it escapes. -/
def escapeJsonChar (c : Char) : List Char :=
  if c = '"' then ['\\', '"']
  else if c = '\\' then ['\\', '\\']
  else if c = '\n' then ['\\', 'n']
  else if c = '\t' then ['\\', 't']
  else if c = '\r' then ['\\', 'r']
  else if c.toNat = 8 then ['\\', 'b']
  else if c.toNat = 12 then ['\\', 'f']
  else if c.toNat < 32 then
    ['\\', 'u', '0', '0', hexDigit (c.toNat / 16), hexDigit (c.toNat % 16)]
  else [c]

def dumpString (s : List Char) : List Char :=
  '"' :: (s.map escapeJsonChar).join ++ ['"']

def dumpInt (n : Int) : List Char := (toString n).data

def dumpStrArray (xs : List (List Char)) : List Char :=
  '[' :: List.intercalate ",".data (xs.map dumpString) ++ [']']

/-- The nested `nats` object built by `encode`: `type`, `version`, and
either `signing_keys` (operator/account; omitted when empty, mirroring
`if (!impl_->signingKeys_.empty())`) or `issuer_account` (user;
omitted when absent). -/
structure NatsObj where
  type : List Char
  version : Int
  signing_keys : List (List Char)
  issuer_account : Option (List Char)
  deriving Repr, DecidableEq

/-- The payload object built by `encode`: required `jti`, `iat`,
`iss`, `sub`; optional `name` and `exp` (present only when set /
positive); nested `nats`. -/
structure Payload where
  jti : List Char
  iat : Int
  iss : List Char
  sub : List Char
  name : Option (List Char)
  exp : Option Int
  nats : NatsObj
  deriving Repr, DecidableEq

/-- nlohmann dump of the `nats` object (keys in sorted order:
issuer_account, signing_keys, type, version). -/
def dumpNats (n : NatsObj) : List Char :=
  let fields : List (List Char) :=
    (match n.issuer_account with
     | some a => ["\"issuer_account\":".data ++ dumpString a]
     | none => []) ++
    (if n.signing_keys = [] then []
     else ["\"signing_keys\":".data ++ dumpStrArray n.signing_keys]) ++
    ["\"type\":".data ++ dumpString n.type,
     "\"version\":".data ++ dumpInt n.version]
  '{' :: List.intercalate ",".data fields ++ ['}']

/-- nlohmann dump of the payload (keys in sorted order: exp, iat, iss,
jti, name, nats, sub). -/
def dumpPayload (p : Payload) : List Char :=
  let fields : List (List Char) :=
    (match p.exp with
     | some e => ["\"exp\":".data ++ dumpInt e]
     | none => []) ++
    ["\"iat\":".data ++ dumpInt p.iat,
     "\"iss\":".data ++ dumpString p.iss,
     "\"jti\":".data ++ dumpString p.jti] ++
    (match p.name with
     | some nm => ["\"name\":".data ++ dumpString nm]
     | none => []) ++
    ["\"nats\":".data ++ dumpNats p.nats,
     "\"sub\":".data ++ dumpString p.sub]
  '{' :: List.intercalate ",".data fields ++ ['}']

/-- Record `OperatorClaims::Impl` (operator_claims.cpp). -/
structure OperatorClaimsImpl where
  subject : List Char
  issuer : List Char
  name : Option (List Char)
  issuedAt : Int
  expires : Int
  signingKeys : List (List Char)
  deriving Repr, DecidableEq

/-- Record `AccountClaims::Impl` (account_claims.cpp). -/
structure AccountClaimsImpl where
  subject : List Char
  issuer : List Char
  name : Option (List Char)
  issuedAt : Int
  expires : Int
  signingKeys : List (List Char)
  deriving Repr, DecidableEq

/-- Record `UserClaims::Impl` (user_claims.cpp). -/
structure UserClaimsImpl where
  subject : List Char
  issuer : List Char
  name : Option (List Char)
  issuedAt : Int
  expires : Int
  issuerAccount : Option (List Char)
  deriving Repr, DecidableEq

/-- Method `OperatorClaims::validate()` (operator_claims.cpp lines 108-122). -/
def OperatorClaims.validate (c : OperatorClaimsImpl) : Except String Unit :=
  if c.subject = [] then .error "Operator subject cannot be empty"
  else if c.issuer = [] then .error "Operator issuer cannot be empty"
  else if firstChar c.subject ≠ 'O' then
    .error "Operator subject must start with 'O'"
  else if c.expires > 0 ∧ c.issuedAt > 0 ∧ c.expires ≤ c.issuedAt then
    .error "Expiration must be after issuedAt"
  else .ok ()

/-- Method `AccountClaims::validate()` (account_claims.cpp lines 108-125). -/
def AccountClaims.validate (c : AccountClaimsImpl) : Except String Unit :=
  if c.subject = [] then .error "Account subject cannot be empty"
  else if c.issuer = [] then
    .error "Account issuer cannot be empty (must be signed by Operator)"
  else if firstChar c.subject ≠ 'A' then
    .error "Account subject must start with 'A'"
  else if firstChar c.issuer ≠ 'O' then
    .error "Account issuer must be an Operator (start with 'O')"
  else if c.expires > 0 ∧ c.issuedAt > 0 ∧ c.expires ≤ c.issuedAt then
    .error "Expiration must be after issuedAt"
  else .ok ()

/-- Method `UserClaims::validate()` (user_claims.cpp lines 109-126). -/
def UserClaims.validate (c : UserClaimsImpl) : Except String Unit :=
  if c.subject = [] then .error "User subject cannot be empty"
  else if c.issuer = [] then
    .error "User issuer cannot be empty (must be signed by Account)"
  else if firstChar c.subject ≠ 'U' then
    .error "User subject must start with 'U'"
  else if firstChar c.issuer ≠ 'A' then
    .error "User issuer must be an Account (start with 'A')"
  else if c.expires > 0 ∧ c.issuedAt > 0 ∧ c.expires ≤ c.issuedAt then
    .error "Expiration must be after issuedAt"
  else .ok ()

/-- The payload record built inside `OperatorClaims::encode` (lines
49-76): `jti` is the fresh `generateJti()` value, and `iat` is
`issuedAt_` or, when that is 0, the `getCurrentTimestamp()` reading
`now`.  The claim record is only read. -/
def operatorPayload (c : OperatorClaimsImpl) (jti : List Char)
    (now : Int) : Payload :=
  { jti := jti
    iat := if c.issuedAt = 0 then now else c.issuedAt
    iss := c.issuer
    sub := c.subject
    name := c.name
    exp := if c.expires > 0 then some c.expires else none
    nats := { type := "operator".data, version := JWT_VERSION,
              signing_keys := c.signingKeys, issuer_account := none } }

/-- Same for `AccountClaims::encode`. -/
def accountPayload (c : AccountClaimsImpl) (jti : List Char)
    (now : Int) : Payload :=
  { jti := jti
    iat := if c.issuedAt = 0 then now else c.issuedAt
    iss := c.issuer
    sub := c.subject
    name := c.name
    exp := if c.expires > 0 then some c.expires else none
    nats := { type := "account".data, version := JWT_VERSION,
              signing_keys := c.signingKeys, issuer_account := none } }

/-- Same for `UserClaims::encode` (lines 50-77). -/
def userPayload (c : UserClaimsImpl) (jti : List Char)
    (now : Int) : Payload :=
  { jti := jti
    iat := if c.issuedAt = 0 then now else c.issuedAt
    iss := c.issuer
    sub := c.subject
    name := c.name
    exp := if c.expires > 0 then some c.expires else none
    nats := { type := "user".data, version := JWT_VERSION,
              signing_keys := [], issuer_account := c.issuerAccount } }

/-- Shared tail of the three `encode` bodies (lines 78-105): serialize
header and payload, base64url-encode both, sign
`header_b64 + "." + payload_b64` with the external Ed25519 signer
`sign` (`signData(seed, …)`), and join the three segments. -/
def assembleJwt (payload : Payload) (seed : List Char)
    (sign : List Char → List Nat → List Nat) : List Char :=
  let header_json := createHeader
  let payload_json := dumpPayload payload
  let header_b64 := base64url_encode (header_json.map Char.toNat)
  let payload_b64 := base64url_encode (payload_json.map Char.toNat)
  let signing_input := header_b64 ++ '.' :: payload_b64
  let signature_bytes := sign seed (signing_input.map Char.toNat)
  let signature_b64 := base64url_encode signature_bytes
  signing_input ++ '.' :: signature_b64

/-- Method `OperatorClaims::encode(seed)` (operator_claims.cpp lines 43-106).
The method is `const` and never assigns an `impl_` member, so the
state-passing embedding threads the record through unchanged; `jti`,
`now` and `sign` are the external randomness, clock and signer. -/
def OperatorClaims.encode (c : OperatorClaimsImpl) (seed jti : List Char)
    (now : Int) (sign : List Char → List Nat → List Nat) :
    Except String (List Char) × OperatorClaimsImpl :=
  match OperatorClaims.validate c with
  | .error e => (.error e, c)
  | .ok () => (.ok (assembleJwt (operatorPayload c jti now) seed sign), c)

/-- Method `AccountClaims::encode(seed)` (account_claims.cpp lines 43-106). -/
def AccountClaims.encode (c : AccountClaimsImpl) (seed jti : List Char)
    (now : Int) (sign : List Char → List Nat → List Nat) :
    Except String (List Char) × AccountClaimsImpl :=
  match AccountClaims.validate c with
  | .error e => (.error e, c)
  | .ok () => (.ok (assembleJwt (accountPayload c jti now) seed sign), c)

/-- Method `UserClaims::encode(seed)` (user_claims.cpp lines 44-107). -/
def UserClaims.encode (c : UserClaimsImpl) (seed jti : List Char)
    (now : Int) (sign : List Char → List Nat → List Nat) :
    Except String (List Char) × UserClaimsImpl :=
  match UserClaims.validate c with
  | .error e => (.error e, c)
  | .ok () => (.ok (assembleJwt (userPayload c jti now) seed sign), c)

/-! ## Dispatch layer: `verify` (src/src/jwt.cpp lines 43-66) and
`verifySignature` (src/src/jwt_utils.cpp lines 88-121) -/

/-- The slice of a parsed JSON object that `verify` observes: the
top-level fields, each either a string value (`some s`) or a value of
another JSON type (`none`, on which `get<std::string>()` throws).  A
non-object payload has no fields, which `contains` treats the same as
an object without the key.  `jsonParse` itself (nlohmann
`json::parse`) is an external collaborator passed as a function that
may fail on malformed text. -/
def jsonContains (fields : List (List Char × Option (List Char)))
    (key : List Char) : Bool :=
  fields.any (fun kv => kv.1 = key)

/-- Access `payload[key].get<std::string>()`: throws when the key is missing
or the value is not a string. -/
def jsonGetString (fields : List (List Char × Option (List Char)))
    (key : List Char) : Except String (List Char) :=
  match fields.find? (fun kv => kv.1 = key) with
  | some (_, some v) => .ok v
  | some (_, none) => .error "type must be string"
  | none => .error "key not found"

/-- Conversion `std::string(payload_bytes.begin(), payload_bytes.end())`. -/
def bytesToChars (bs : List Nat) : List Char := bs.map Char.ofNat

/-- Function `verifySignature` from jwt_utils.cpp: decode the base64url
signature, require exactly 64 bytes, and call the external Ed25519
verifier (`pubVerify` models `nkeys::FromPublicKey` + `verify`; its
error case covers `FromPublicKey` throwing).  The surrounding
`try/catch` re-throws every failure as `std::invalid_argument` with a
wrapped message. -/
def verifySignature
    (pubVerify : List Char → List Nat → List Nat → Except String Bool)
    (issuer_public_key signing_input signature_b64 : List Char) :
    Except String Bool :=
  let body : Except String Bool :=
    match base64url_decode signature_b64 with
    | .error e => .error e
    | .ok signature_bytes =>
      if signature_bytes.length ≠ 64 then
        .error ("Invalid signature size: expected 64 bytes, got " ++
          toString signature_bytes.length)
      else
        pubVerify issuer_public_key (signing_input.map Char.toNat)
          signature_bytes
  match body with
  | .ok b => .ok b
  | .error e => .error ("Signature verification failed: " ++ e)

/-- Function `verify(jwt)` from jwt.cpp: the whole body runs inside
`try { ... } catch (...) { return false; }`, so every thrown error
becomes the boolean `false`. -/
def verify
    (jsonParse : List Char →
      Except String (List (List Char × Option (List Char))))
    (pubVerify : List Char → List Nat → List Nat → Except String Bool)
    (jwt : List Char) : Bool :=
  let body : Except String Bool :=
    match parseJwt jwt with
    | .error e => .error e
    | .ok parts =>
      match base64url_decode parts.payload_b64 with
      | .error e => .error e
      | .ok payload_bytes =>
        match jsonParse (bytesToChars payload_bytes) with
        | .error e => .error e
        | .ok payload =>
          if jsonContains payload "iss".data = false then .ok false
          else
            match jsonGetString payload "iss".data with
            | .error e => .error e
            | .ok issuer =>
                verifySignature pubVerify issuer parts.signing_input
                  parts.signature_b64
  match body with
  | .ok b => b
  | .error _ => false

example : base64url_encode [77, 97, 110] = "TWFu".data := by decide

example : base64url_encode [77, 97] = "TWE".data := by decide

example : base64url_encode [77] = "TQ".data := by decide

example : base64url_decode "TWFu".data = .ok [77, 97, 110] := by rfl

example : base64url_decode "TWE=".data = .ok [77, 97] := by rfl

example : base64url_decode "TQ".data = .ok [77] := by rfl

example : base64url_decode "T".data = .error "Invalid Base64 URL input length" := by rfl

example : base64url_decode "T+AA".data =
    .error "Invalid Base64 URL character in input" := by rfl

example : (base64url_decode "A=AA".data).isOk = true := by decide

/-! ## Base64URL codec lemmas -/

/-- The decode table inverts the encode table on every 6-bit value. -/
theorem decodeLookup_encodeChar :
    ∀ v : Fin 64, decodeLookup (encodeChar v.val) = v.val := by decide

/-- No alphabet character is `'+'`, `'/'` or `'='`. -/
theorem encodeChar_ne :
    ∀ v : Fin 64, encodeChar v.val ≠ '+' ∧ encodeChar v.val ≠ '/' ∧
      encodeChar v.val ≠ '=' := by decide

theorem decodeLookup_encodeChar_mod (v : Nat) :
    decodeLookup (encodeChar (v % 64)) = v % 64 :=
  decodeLookup_encodeChar ⟨v % 64, Nat.mod_lt _ (by omega)⟩

theorem encodeChar_mod_ne (v : Nat) :
    encodeChar (v % 64) ≠ '+' ∧ encodeChar (v % 64) ≠ '/' ∧
      encodeChar (v % 64) ≠ '=' :=
  encodeChar_ne ⟨v % 64, Nat.mod_lt _ (by omega)⟩

/-- Every character emitted by `encodeChunks` avoids `'+'`, `'/'`, `'='`. -/
theorem encodeChunks_ne (bs : List Nat) :
    ∀ c ∈ encodeChunks bs, c ≠ '+' ∧ c ≠ '/' ∧ c ≠ '=' := by
  match bs with
  | [] => intro c hc; simp [encodeChunks] at hc
  | [b0] =>
    intro c hc
    simp only [encodeChunks, List.mem_cons, List.mem_singleton,
      List.not_mem_nil, or_false] at hc
    rcases hc with rfl | rfl
    · exact encodeChar_mod_ne _
    · exact encodeChar_mod_ne _
  | [b0, b1] =>
    intro c hc
    simp only [encodeChunks, List.mem_cons, List.mem_singleton,
      List.not_mem_nil, or_false] at hc
    rcases hc with rfl | rfl | rfl
    all_goals exact encodeChar_mod_ne _
  | b0 :: b1 :: b2 :: rest =>
    intro c hc
    simp only [encodeChunks, List.mem_cons] at hc
    rcases hc with rfl | rfl | rfl | rfl | hc
    · exact encodeChar_mod_ne _
    · exact encodeChar_mod_ne _
    · exact encodeChar_mod_ne _
    · exact encodeChar_mod_ne _
    · exact encodeChunks_ne rest c hc

/-- Stripping padding is the identity on padding-free strings. -/
theorem stripPadding_of_ne (l : List Char) (h : ∀ c ∈ l, c ≠ '=') :
    stripPadding l = l := by
  unfold stripPadding
  have : l.reverse.dropWhile (fun c => c = '=') = l.reverse := by
    cases hr : l.reverse with
    | nil => simp
    | cons c cs =>
      have hc : c ∈ l := by
        have : c ∈ l.reverse := by rw [hr]; exact List.mem_cons_self _ _
        simpa using this
      rw [List.dropWhile_cons_of_neg]
      simp [h c hc]
  rw [this, List.reverse_reverse]

/-- Chunkwise round trip: decoding the encoding of a byte string (all
bytes < 256) recovers it exactly. -/
theorem decodeChunks_encodeChunks (bs : List Nat) (h : ∀ b ∈ bs, b < 256) :
    decodeChunks (encodeChunks bs) = .ok bs := by
  match bs with
  | [] => rfl
  | [b0] =>
    have hb0 : b0 < 256 := h b0 (by simp)
    simp only [encodeChunks, decodeChunks, decodeLookup_encodeChar_mod]
    rw [if_neg (by omega)]
    simp only [Except.ok.injEq, List.cons.injEq, and_true]
    omega
  | [b0, b1] =>
    have hb0 : b0 < 256 := h b0 (by simp)
    have hb1 : b1 < 256 := h b1 (by simp)
    simp only [encodeChunks, decodeChunks, decodeLookup_encodeChar_mod]
    rw [if_neg (by omega), if_neg (by omega)]
    simp only [Except.ok.injEq, List.cons.injEq, and_true]
    omega
  | b0 :: b1 :: b2 :: rest =>
    have hb0 : b0 < 256 := h b0 (by simp)
    have hb1 : b1 < 256 := h b1 (by simp)
    have hb2 : b2 < 256 := h b2 (by simp)
    have ih := decodeChunks_encodeChunks rest (fun b hb => h b (by simp [hb]))
    simp only [encodeChunks, decodeChunks, decodeLookup_encodeChar_mod, ih]
    rw [if_neg (by omega)]
    simp only [Except.ok.injEq, List.cons.injEq, and_true, true_and]
    omega

theorem base64Alphabet_length : base64Alphabet.length = 64 := by decide

theorem isOk_error {e : String} {α : Type} :
    (Except.error e : Except String α).isOk = false := rfl

theorem isOk_ok {α : Type} {a : α} :
    (Except.ok a : Except String α).isOk = true := rfl

/-- A character maps to the invalid marker `0xFF` exactly when it is
outside the alphabet and is not `'='`. -/
theorem decodeLookup_eq_255_iff (c : Char) :
    decodeLookup c = 255 ↔ c ∉ base64Alphabet ∧ c ≠ '=' := by
  unfold decodeLookup
  by_cases hm : c ∈ base64Alphabet
  · have hlt : base64Alphabet.findIdx (fun d => d = c) < 64 := by
      have := @List.findIdx_lt_length_of_exists Char (fun d => d = c)
        base64Alphabet ⟨c, hm, by simp⟩
      simpa [base64Alphabet_length] using this
    simp only [hlt, if_pos]
    constructor
    · intro h; omega
    · rintro ⟨hnot, _⟩; exact absurd hm hnot
  · have hge : ¬ base64Alphabet.findIdx (fun d => d = c) < 64 := by
      intro hlt
      have hlt' : base64Alphabet.findIdx (fun d => d = c) <
          base64Alphabet.length := by
        simpa [base64Alphabet_length] using hlt
      have hp := List.findIdx_get (p := fun d => d = c) (w := hlt')
      simp only [decide_eq_true_eq] at hp
      exact hm (hp ▸ List.get_mem _ _ _)
    rw [if_neg hge]
    by_cases he : c = '='
    · simp [he]
    · simp [he, hm]

/-- If every character is valid and the length avoids the residue 1,
`decodeChunks` succeeds. -/
theorem decodeChunks_ok_of : ∀ l : List Char,
    (∀ c ∈ l, decodeLookup c ≠ 255) → l.length % 4 ≠ 1 →
    (decodeChunks l).isOk = true
  | [], _, _ => rfl
  | [c1], _, h2 => absurd (by simp : [c1].length % 4 = 1) h2
  | [c1, c2], h1, _ => by
      have k1 := h1 c1 (by simp)
      have k2 := h1 c2 (by simp)
      simp only [decodeChunks]
      rw [if_neg (by tauto)]
      exact isOk_ok
  | [c1, c2, c3], h1, _ => by
      have k1 := h1 c1 (by simp)
      have k2 := h1 c2 (by simp)
      have k3 := h1 c3 (by simp)
      simp only [decodeChunks]
      rw [if_neg (by tauto), if_neg k3]
      exact isOk_ok
  | c1 :: c2 :: c3 :: c4 :: rest, h1, h2 => by
      have k1 := h1 c1 (by simp)
      have k2 := h1 c2 (by simp)
      have k3 := h1 c3 (by simp)
      have k4 := h1 c4 (by simp)
      have hr : rest.length % 4 ≠ 1 := by
        simp only [List.length_cons] at h2
        omega
      have ih := decodeChunks_ok_of rest
        (fun c hc => h1 c (by simp [hc])) hr
      simp only [decodeChunks]
      rw [if_neg (by tauto)]
      cases hrest : decodeChunks rest with
      | error e => rw [hrest] at ih; exact absurd ih (by simp [isOk_error])
      | ok tail => rfl

/-- If `decodeChunks` succeeds, every character was valid. -/
theorem decodeChunks_valid_of_ok : ∀ l : List Char,
    (decodeChunks l).isOk = true → ∀ c ∈ l, decodeLookup c ≠ 255
  | [], _, c, hc => absurd hc (List.not_mem_nil c)
  | [c1], h, _, _ => absurd h (by simp [decodeChunks, isOk_error])
  | [c1, c2], h, c, hc => by
      by_cases hbad : decodeLookup c1 = 255 ∨ decodeLookup c2 = 255
      · rw [decodeChunks.eq_def] at h
        simp [if_pos hbad, isOk_error] at h
      · push_neg at hbad
        rcases (by simpa using hc : c = c1 ∨ c = c2) with rfl | rfl
        · exact hbad.1
        · exact hbad.2
  | [c1, c2, c3], h, c, hc => by
      by_cases hbad : decodeLookup c1 = 255 ∨ decodeLookup c2 = 255
      · rw [decodeChunks.eq_def] at h
        simp [if_pos hbad, isOk_error] at h
      · by_cases h3 : decodeLookup c3 = 255
        · rw [decodeChunks.eq_def] at h
          simp [if_neg hbad, if_pos h3, isOk_error] at h
        · push_neg at hbad
          rcases (by simpa using hc : c = c1 ∨ c = c2 ∨ c = c3) with rfl | rfl | rfl
          · exact hbad.1
          · exact hbad.2
          · exact h3
  | c1 :: c2 :: c3 :: c4 :: rest, h, c, hc => by
      by_cases hbad : decodeLookup c1 = 255 ∨ decodeLookup c2 = 255 ∨
          decodeLookup c3 = 255 ∨ decodeLookup c4 = 255
      · rw [decodeChunks.eq_def] at h
        simp [if_pos hbad, isOk_error] at h
      · have hrest : (decodeChunks rest).isOk = true := by
          rw [decodeChunks.eq_def] at h
          simp only [if_neg hbad] at h
          cases hr : decodeChunks rest with
          | error e => rw [hr] at h; simp [isOk_error] at h
          | ok tail => rfl
        push_neg at hbad
        obtain ⟨k1, k2, k3, k4⟩ := hbad
        rcases (by simpa using hc :
            c = c1 ∨ c = c2 ∨ c = c3 ∨ c = c4 ∨ c ∈ rest) with
          rfl | rfl | rfl | rfl | hmem
        · exact k1
        · exact k2
        · exact k3
        · exact k4
        · exact decodeChunks_valid_of_ok rest hrest c hmem

/-- If `decodeChunks` succeeds, the length is not congruent to 1 mod 4. -/
theorem decodeChunks_len_of_ok : ∀ l : List Char,
    (decodeChunks l).isOk = true → l.length % 4 ≠ 1
  | [], _ => by simp
  | [c1], h => absurd h (by simp [decodeChunks, isOk_error])
  | [c1, c2], _ => by simp
  | [c1, c2, c3], _ => by simp
  | c1 :: c2 :: c3 :: c4 :: rest, h => by
      by_cases hbad : decodeLookup c1 = 255 ∨ decodeLookup c2 = 255 ∨
          decodeLookup c3 = 255 ∨ decodeLookup c4 = 255
      · rw [decodeChunks.eq_def] at h
        simp [if_pos hbad, isOk_error] at h
      · have hrest : (decodeChunks rest).isOk = true := by
          rw [decodeChunks.eq_def] at h
          simp only [if_neg hbad] at h
          cases hr : decodeChunks rest with
          | error e => rw [hr] at h; simp [isOk_error] at h
          | ok tail => rfl
        have := decodeChunks_len_of_ok rest hrest
        simp only [List.length_cons]
        omega

/-- Success characterisation: `decodeChunks` succeeds exactly when no character maps to `0xFF`
and the length is not congruent to 1 mod 4. -/
theorem decodeChunks_isOk (l : List Char) :
    (decodeChunks l).isOk = true ↔
      (∀ c ∈ l, decodeLookup c ≠ 255) ∧ l.length % 4 ≠ 1 :=
  ⟨fun h => ⟨decodeChunks_valid_of_ok l h, decodeChunks_len_of_ok l h⟩,
   fun ⟨h1, h2⟩ => decodeChunks_ok_of l h1 h2⟩

/-- An invalid character in a group that gets examined (the length not
being ≡ 1 mod 4, every group is examined) raises the character error. -/
theorem decodeChunks_error_char : ∀ l : List Char,
    (∃ c ∈ l, decodeLookup c = 255) → l.length % 4 ≠ 1 →
    decodeChunks l = .error "Invalid Base64 URL character in input"
  | [], h, _ => absurd h (by simp)
  | [c1], _, h2 => absurd (by simp : [c1].length % 4 = 1) h2
  | [c1, c2], h, _ => by
      have hbad : decodeLookup c1 = 255 ∨ decodeLookup c2 = 255 := by
        obtain ⟨c, hc, hv⟩ := h
        rcases (by simpa using hc : c = c1 ∨ c = c2) with rfl | rfl
        · exact Or.inl hv
        · exact Or.inr hv
      simp only [decodeChunks]
      rw [if_pos hbad]
  | [c1, c2, c3], h, _ => by
      obtain ⟨c, hc, hv⟩ := h
      rcases (by simpa using hc : c = c1 ∨ c = c2 ∨ c = c3) with rfl | rfl | rfl
      · simp only [decodeChunks]; rw [if_pos (Or.inl hv)]
      · simp only [decodeChunks]; rw [if_pos (Or.inr hv)]
      · by_cases h12 : decodeLookup c1 = 255 ∨ decodeLookup c2 = 255
        · simp only [decodeChunks]; rw [if_pos h12]
        · simp only [decodeChunks]; rw [if_neg h12, if_pos hv]
  | c1 :: c2 :: c3 :: c4 :: rest, h, h2 => by
      by_cases hbad : decodeLookup c1 = 255 ∨ decodeLookup c2 = 255 ∨
          decodeLookup c3 = 255 ∨ decodeLookup c4 = 255
      · simp only [decodeChunks]; rw [if_pos hbad]
      · push_neg at hbad
        obtain ⟨k1, k2, k3, k4⟩ := hbad
        have hrest : ∃ c ∈ rest, decodeLookup c = 255 := by
          obtain ⟨c, hc, hv⟩ := h
          rcases (by simpa using hc :
              c = c1 ∨ c = c2 ∨ c = c3 ∨ c = c4 ∨ c ∈ rest) with
            rfl | rfl | rfl | rfl | hmem
          · exact absurd hv k1
          · exact absurd hv k2
          · exact absurd hv k3
          · exact absurd hv k4
          · exact ⟨c, hmem, hv⟩
        have hlen : rest.length % 4 ≠ 1 := by
          simp only [List.length_cons] at h2
          omega
        have ih := decodeChunks_error_char rest hrest hlen
        simp only [decodeChunks]
        rw [if_neg (by tauto), ih]

/-- A final group of exactly one leftover character raises the length
error, provided every complete 4-group before it is valid. -/
theorem decodeChunks_error_len : ∀ l : List Char,
    l.length % 4 = 1 →
    (∀ c ∈ l.take (l.length - 1), decodeLookup c ≠ 255) →
    decodeChunks l = .error "Invalid Base64 URL input length"
  | [], h, _ => absurd h (by simp)
  | [c1], _, _ => rfl
  | [c1, c2], h, _ => absurd h (by simp)
  | [c1, c2, c3], h, _ => absurd h (by simp)
  | c1 :: c2 :: c3 :: c4 :: rest, h, hv => by
      have hlen : rest.length % 4 = 1 := by
        simp only [List.length_cons] at h
        omega
      have hrpos : 1 ≤ rest.length := by omega
      have htake : (c1 :: c2 :: c3 :: c4 :: rest).take
          ((c1 :: c2 :: c3 :: c4 :: rest).length - 1) =
          c1 :: c2 :: c3 :: c4 :: rest.take (rest.length - 1) := by
        simp only [List.length_cons]
        rw [show rest.length + 1 + 1 + 1 + 1 - 1 = rest.length - 1 + 4 by omega]
        simp [List.take_succ_cons]
      rw [htake] at hv
      have k1 := hv c1 (by simp)
      have k2 := hv c2 (by simp)
      have k3 := hv c3 (by simp)
      have k4 := hv c4 (by simp)
      have hvr : ∀ c ∈ rest.take (rest.length - 1), decodeLookup c ≠ 255 :=
        fun c hc => hv c (by simp [hc])
      have ih := decodeChunks_error_len rest hlen hvr
      simp only [decodeChunks]
      rw [if_neg (by tauto), ih]

theorem encodeChunks_ne_nil (bs : List Nat) (h : bs ≠ []) :
    encodeChunks bs ≠ [] := by
  match bs with
  | [] => exact absurd rfl h
  | [b0] => simp [encodeChunks]
  | [b0, b1] => simp [encodeChunks]
  | b0 :: b1 :: b2 :: rest => simp [encodeChunks]

/-- C1: for every byte string `b` (each byte < 256, the range of
`std::uint8_t`), including the empty one,
`base64url_decode(base64url_encode(b)) == b`, and the encoded output
never contains `'+'`, `'/'` or `'='`. -/
theorem base64url_roundtrip (bs : List Nat) (h : ∀ b ∈ bs, b < 256) :
    base64url_decode (base64url_encode bs) = .ok bs ∧
      ∀ c ∈ base64url_encode bs, c ≠ '+' ∧ c ≠ '/' ∧ c ≠ '=' := by
  by_cases hbs : bs = []
  · subst hbs
    exact ⟨rfl, by intro c hc; simp [base64url_encode] at hc⟩
  · have hne := encodeChunks_ne bs
    have henc := encodeChunks_ne_nil bs hbs
    have hstrip := stripPadding_of_ne (encodeChunks bs)
      (fun c hc => (hne c hc).2.2)
    constructor
    · unfold base64url_encode base64url_decode
      rw [if_neg hbs, if_neg henc]
      simp only [hstrip]
      rw [if_neg henc]
      exact decodeChunks_encodeChunks bs h
    · unfold base64url_encode
      rw [if_neg hbs]
      exact hne

/-- Witness for `base64url_roundtrip` at the concrete byte string
`[0, 255, 7, 128]`. -/
theorem base64url_roundtrip_witness :
    base64url_decode (base64url_encode [0, 255, 7, 128]) =
        .ok [0, 255, 7, 128] ∧
      ∀ c ∈ base64url_encode [0, 255, 7, 128],
        c ≠ '+' ∧ c ≠ '/' ∧ c ≠ '=' :=
  base64url_roundtrip [0, 255, 7, 128] (by decide)

/-- C8 counterexample: `"A=AA"` keeps its embedded `'='` after padding
stripping (only trailing `'='` is removed), `'='` is outside the
base64url alphabet, and yet `base64url_decode` succeeds instead of
failing with the invalid-character error: the decode table maps `'='`
to the value 0. -/
theorem base64url_decode_accepts_embedded_padding :
    '=' ∈ stripPadding "A=AA".data ∧ '=' ∉ base64Alphabet ∧
      (base64url_decode "A=AA".data).isOk = true := by decide

/-- C8 (amended): after stripping trailing `'='`, decoding fails with
the invalid-character error for every examined input containing a
character that is outside the alphabet `A-Z a-z 0-9 - _` *and is not*
`'='` (an embedded `'='` is looked up as the value 0 and accepted);
it fails with the invalid-length error whenever the remaining length
is ≡ 1 mod 4 and the complete 4-character groups before the leftover
are valid; and it succeeds exactly when no such invalid character
occurs and the length is not ≡ 1 mod 4. -/
theorem base64url_decode_characterization (l : List Char) :
    ((base64url_decode l).isOk = true ↔
      (∀ c ∈ stripPadding l, ¬(c ∉ base64Alphabet ∧ c ≠ '=')) ∧
        (stripPadding l).length % 4 ≠ 1) ∧
    ((∃ c ∈ stripPadding l, c ∉ base64Alphabet ∧ c ≠ '=') →
      (stripPadding l).length % 4 ≠ 1 →
      base64url_decode l = .error "Invalid Base64 URL character in input") ∧
    ((stripPadding l).length % 4 = 1 →
      (∀ c ∈ (stripPadding l).take ((stripPadding l).length - 1),
        ¬(c ∉ base64Alphabet ∧ c ≠ '=')) →
      base64url_decode l = .error "Invalid Base64 URL input length") := by
  by_cases hl : l = []
  · subst hl
    refine ⟨by simp [base64url_decode, stripPadding, isOk_ok], ?_, ?_⟩
    · rintro ⟨c, hc, -⟩
      simp [stripPadding] at hc
    · intro h
      simp [stripPadding] at h
  · by_cases hs : stripPadding l = []
    · rw [hs]
      refine ⟨?_, ?_, ?_⟩
      · simp only [base64url_decode, if_neg hl, hs]
        simp [isOk_ok]
      · rintro ⟨c, hc, -⟩
        simp at hc
      · intro h
        simp at h
    · have hd : base64url_decode l = decodeChunks (stripPadding l) := by
        unfold base64url_decode
        rw [if_neg hl]
        simp [hs]
      refine ⟨?_, ?_, ?_⟩
      · rw [hd, decodeChunks_isOk]
        constructor
        · rintro ⟨hall, hlen⟩
          refine ⟨fun c hc hbad => hall c hc ((decodeLookup_eq_255_iff c).mpr hbad), hlen⟩
        · rintro ⟨hall, hlen⟩
          refine ⟨fun c hc hv => hall c hc ((decodeLookup_eq_255_iff c).mp hv), hlen⟩
      · rintro ⟨c, hc, hbad⟩ hlen
        rw [hd]
        exact decodeChunks_error_char _ ⟨c, hc, (decodeLookup_eq_255_iff c).mpr hbad⟩ hlen
      · intro hlen hall
        rw [hd]
        exact decodeChunks_error_len _ hlen
          (fun c hc hv => hall c hc ((decodeLookup_eq_255_iff c).mp hv))

/-- Witness for `base64url_decode_characterization` at `"T+AA"` (the
invalid-character branch) and `"AAAAB"` (the invalid-length branch). -/
theorem base64url_decode_characterization_witness :
    base64url_decode "T+AA".data =
        .error "Invalid Base64 URL character in input" ∧
      base64url_decode "AAAAB".data =
        .error "Invalid Base64 URL input length" :=
  ⟨(base64url_decode_characterization "T+AA".data).2.1
      ⟨'+', by decide, by decide⟩ (by decide),
   (base64url_decode_characterization "AAAAB".data).2.2
      (by decide) (by decide)⟩

example : parseJwt "aa.bb.cc".data =
    .ok ⟨"aa".data, "bb".data, "cc".data, "aa.bb".data⟩ := by rfl

example : (parseJwt "aa.bb".data).isOk = false := by decide

example : (parseJwt "a.b.c.d".data).isOk = false := by decide

example : (parseJwt ".b.c".data).isOk = false := by decide

example : (parseJwt "a..c".data).isOk = false := by decide

example : (parseJwt "a.b.".data).isOk = false := by decide

theorem splitFirstDot_eq_none (l : List Char) :
    splitFirstDot l = none ↔ '.' ∉ l := by
  induction l with
  | nil => simp [splitFirstDot]
  | cons c cs ih =>
    by_cases hc : c = '.'
    · subst hc
      simp [splitFirstDot]
    · cases h : splitFirstDot cs with
      | none =>
        have hcs : '.' ∉ cs := ih.mp h
        simp [splitFirstDot, if_neg hc, h, Ne.symm hc, hcs]
      | some p =>
        have hcs : '.' ∈ cs := by
          by_contra hn
          rw [ih.mpr hn] at h
          exact Option.noConfusion h
        simp [splitFirstDot, if_neg hc, h, hcs]

theorem splitFirstDot_eq_some : ∀ l h t : List Char,
    splitFirstDot l = some (h, t) → l = h ++ '.' :: t ∧ '.' ∉ h
  | [], h, t, hs => by simp [splitFirstDot] at hs
  | c :: cs, h, t, hs => by
    by_cases hc : c = '.'
    · subst hc
      simp only [splitFirstDot, if_pos rfl, Option.some.injEq,
        Prod.mk.injEq] at hs
      obtain ⟨rfl, rfl⟩ := hs
      simp
    · simp only [splitFirstDot, if_neg hc] at hs
      cases hcs : splitFirstDot cs with
      | none => rw [hcs] at hs; simp at hs
      | some p =>
        obtain ⟨h', t'⟩ := p
        rw [hcs] at hs
        simp only [Option.some.injEq, Prod.mk.injEq] at hs
        obtain ⟨hh, ht⟩ := hs
        obtain ⟨hcs', hnot⟩ := splitFirstDot_eq_some cs h' t' hcs
        subst_vars
        refine ⟨by simp, ?_⟩
        simp only [List.mem_cons, not_or]
        exact ⟨Ne.symm hc, hnot⟩

theorem splitFirstDot_append (h t : List Char) (hnot : '.' ∉ h) :
    splitFirstDot (h ++ '.' :: t) = some (h, t) := by
  induction h with
  | nil => simp [splitFirstDot]
  | cons c cs ih =>
    have hc : c ≠ '.' := fun hcc => hnot (by simp [hcc])
    have hcs : '.' ∉ cs := fun hm => hnot (by simp [hm])
    have hr := ih hcs
    simp only [List.cons_append, splitFirstDot]
    rw [if_neg hc, show cs.append ('.' :: t) = cs ++ '.' :: t from rfl, hr]

/-- Shape of a successful parse: the three segments are dot-free
non-empty substrings of the original token, and `signing_input` is the
concatenation `header ++ "." ++ payload`. -/
theorem parseJwt_ok_shape (jwt : List Char) (parts : JwtParts)
    (h : parseJwt jwt = .ok parts) :
    jwt = parts.header_b64 ++ '.' ::
        (parts.payload_b64 ++ '.' :: parts.signature_b64) ∧
      parts.signing_input = parts.header_b64 ++ '.' :: parts.payload_b64 ∧
      parts.header_b64 ≠ [] ∧ parts.payload_b64 ≠ [] ∧
      parts.signature_b64 ≠ [] ∧ '.' ∉ parts.header_b64 ∧
      '.' ∉ parts.payload_b64 ∧ '.' ∉ parts.signature_b64 := by
  unfold parseJwt at h
  cases h1 : splitFirstDot jwt with
  | none => simp only [h1] at h; exact Except.noConfusion h
  | some p1 =>
    obtain ⟨h0, rest1⟩ := p1
    simp only [h1] at h
    cases h2 : splitFirstDot rest1 with
    | none => simp only [h2] at h; exact Except.noConfusion h
    | some p2 =>
      obtain ⟨p0, s0⟩ := p2
      simp only [h2] at h
      cases h3 : splitFirstDot s0 with
      | some p3 => simp only [h3] at h; exact Except.noConfusion h
      | none =>
        simp only [h3] at h
        by_cases e1 : h0 = []
        · rw [if_pos e1] at h; exact Except.noConfusion h
        · rw [if_neg e1] at h
          by_cases e2 : p0 = []
          · rw [if_pos e2] at h; exact Except.noConfusion h
          · rw [if_neg e2] at h
            by_cases e3 : s0 = []
            · rw [if_pos e3] at h; exact Except.noConfusion h
            · rw [if_neg e3] at h
              simp only [Except.ok.injEq] at h
              subst h
              obtain ⟨hj, hnh⟩ := splitFirstDot_eq_some jwt h0 rest1 h1
              obtain ⟨hr, hnp⟩ := splitFirstDot_eq_some rest1 p0 s0 h2
              have hns : '.' ∉ s0 := (splitFirstDot_eq_none s0).mp h3
              subst hr
              exact ⟨hj, rfl, e1, e2, e3, hnh, hnp, hns⟩

/-- Existence characterisation of a successful parse. -/
theorem parseJwt_ok_iff (jwt : List Char) :
    (parseJwt jwt).isOk = true ↔
      ∃ h p s, jwt = h ++ '.' :: (p ++ '.' :: s) ∧
        h ≠ [] ∧ p ≠ [] ∧ s ≠ [] ∧ '.' ∉ h ∧ '.' ∉ p ∧ '.' ∉ s := by
  constructor
  · intro hok
    cases hp : parseJwt jwt with
    | error e => rw [hp] at hok; simp [isOk_error] at hok
    | ok parts =>
      obtain ⟨hj, _, e1, e2, e3, n1, n2, n3⟩ := parseJwt_ok_shape jwt parts hp
      exact ⟨parts.header_b64, parts.payload_b64, parts.signature_b64,
        hj, e1, e2, e3, n1, n2, n3⟩
  · rintro ⟨h, p, t, rfl, e1, e2, e3, n1, n2, n3⟩
    unfold parseJwt
    simp only [splitFirstDot_append h (p ++ '.' :: t) n1,
      splitFirstDot_append p t n2, (splitFirstDot_eq_none t).mpr n3,
      if_neg e1, if_neg e2, if_neg e3]
    exact isOk_ok

/-- C7: `parseJwt` fails exactly when the token does not decompose as
three non-empty dot-free segments joined by two dots (i.e. fewer than
2 dots, more than 2 dots, or an empty segment); on success the result
is that decomposition of the original token (substrings, not
re-encodings), the dot count is exactly 2, and `signing_input` is
`header_b64 ++ "." ++ payload_b64`. -/
theorem parseJwt_spec (jwt : List Char) :
    ((parseJwt jwt).isOk = true ↔
      ∃ h p s, jwt = h ++ '.' :: (p ++ '.' :: s) ∧
        h ≠ [] ∧ p ≠ [] ∧ s ≠ [] ∧ '.' ∉ h ∧ '.' ∉ p ∧ '.' ∉ s) ∧
    (∀ parts, parseJwt jwt = .ok parts →
      parts.signing_input = parts.header_b64 ++ '.' :: parts.payload_b64 ∧
      jwt = parts.header_b64 ++ '.' ::
        (parts.payload_b64 ++ '.' :: parts.signature_b64) ∧
      jwt.count '.' = 2) := by
  refine ⟨parseJwt_ok_iff jwt, fun parts hp => ?_⟩
  obtain ⟨hj, hsi, _, _, _, n1, n2, n3⟩ := parseJwt_ok_shape jwt parts hp
  refine ⟨hsi, hj, ?_⟩
  rw [hj]
  simp [List.count_append, List.count_cons, List.count_eq_zero.mpr n1,
    List.count_eq_zero.mpr n2, List.count_eq_zero.mpr n3]

/-- Witness for `parseJwt_spec` at the concrete token `"aa.bb.cc"`. -/
theorem parseJwt_spec_witness :
    (JwtParts.mk "aa".data "bb".data "cc".data "aa.bb".data).signing_input =
        (JwtParts.mk "aa".data "bb".data "cc".data
            "aa.bb".data).header_b64 ++ '.' ::
          (JwtParts.mk "aa".data "bb".data "cc".data
              "aa.bb".data).payload_b64 ∧
      "aa.bb.cc".data =
        (JwtParts.mk "aa".data "bb".data "cc".data
            "aa.bb".data).header_b64 ++ '.' ::
          ((JwtParts.mk "aa".data "bb".data "cc".data
              "aa.bb".data).payload_b64 ++ '.' ::
            (JwtParts.mk "aa".data "bb".data "cc".data
                "aa.bb".data).signature_b64) ∧
      "aa.bb.cc".data.count '.' = 2 :=
  (parseJwt_spec "aa.bb.cc".data).2
    (JwtParts.mk "aa".data "bb".data "cc".data "aa.bb".data) (by rfl)

/-- C3 (code-bug evidence): a well-formed token strictly longer than
`MAX_JWT_SIZE` is parsed successfully; no size check runs before (or
during) parsing anywhere in the decode paths. -/
theorem parseJwt_ignores_size_limit :
    ('h' :: '.' :: 'p' :: '.' ::
        List.replicate (MAX_JWT_SIZE + 1) 'x').length > MAX_JWT_SIZE ∧
      (parseJwt ('h' :: '.' :: 'p' :: '.' ::
        List.replicate (MAX_JWT_SIZE + 1) 'x')).isOk = true := by
  constructor
  · rw [List.length_cons, List.length_cons, List.length_cons,
      List.length_cons, List.length_replicate]
    omega
  · rw [parseJwt_ok_iff]
    refine ⟨['h'], ['p'], List.replicate (MAX_JWT_SIZE + 1) 'x',
      rfl, by simp, by simp, ?_, by simp, by simp, ?_⟩
    · intro hnil
      have hlen := congrArg List.length hnil
      rw [List.length_replicate] at hlen
      exact Nat.succ_ne_zero _ hlen
    · intro hm
      exact absurd (List.eq_of_mem_replicate hm) (by decide)

example :
    (validateKeyHierarchy ⟨"AX".data, "OX".data, none, 0, 0⟩
      ⟨"OX".data, "OX".data, none, 0, 0⟩).valid = true := by decide

example :
    (validateKeyHierarchy ⟨"UX".data, "AX".data, none, 0, 0⟩
      ⟨"AX".data, "OX".data, none, 0, 0⟩).valid = true := by decide

example :
    (validateKeyHierarchy ⟨"OX".data, "OY".data, none, 0, 0⟩
      ⟨"OY".data, "OY".data, none, 0, 0⟩).valid = false := by decide

example :
    (validateKeyHierarchy ⟨"UX".data, "OX".data, none, 0, 0⟩
      ⟨"OX".data, "OX".data, none, 0, 0⟩).valid = false := by decide

/-- C6: `validateExpiration` returns success whenever `expires <= 0`;
when `expires > 0` it fails exactly when `now > expires + skew`. -/
theorem validateExpiration_spec (c : Claims) (skew now : Int) :
    (c.expires ≤ 0 → validateExpiration c skew now = ValidationResult.success) ∧
    (0 < c.expires →
      ((validateExpiration c skew now).valid = false ↔
        now > c.expires + skew)) := by
  simp only [validateExpiration]
  constructor
  · intro h
    rw [if_pos h]
  · intro h
    rw [if_neg (by omega)]
    by_cases hgt : now > c.expires + skew
    · rw [if_pos hgt]
      simp [ValidationResult.failure, hgt]
    · rw [if_neg hgt]
      simp [ValidationResult.success, hgt]

/-- Witness for `validateExpiration_spec`: a claim with `expires = 0`
never fails, and a claim with `expires = 10` fails at `now = 11` with
zero skew. -/
theorem validateExpiration_spec_witness :
    validateExpiration ⟨"OX".data, "OX".data, none, 0, 0⟩ 0 100 =
        ValidationResult.success ∧
      (validateExpiration ⟨"OX".data, "OX".data, none, 0, 10⟩ 0 11).valid =
        false :=
  ⟨(validateExpiration_spec ⟨"OX".data, "OX".data, none, 0, 0⟩ 0 100).1
      (by decide),
   ((validateExpiration_spec ⟨"OX".data, "OX".data, none, 0, 10⟩ 0 11).2
      (by decide)).mpr (by decide)⟩

/-- C9 counterexample: when both `child.issuer` and `parent.subject`
are the empty string they are equal, yet `validateIssuerChain` fails
(with "Child issuer is empty") instead of succeeding. -/
theorem validateIssuerChain_empty_counterexample :
    (Claims.mk [] [] none 0 0).issuer = (Claims.mk [] [] none 0 0).subject ∧
      (validateIssuerChain (Claims.mk [] [] none 0 0)
        (Claims.mk [] [] none 0 0)).valid = false := by decide

/-- C9 (amended): `validateIssuerChain` succeeds iff `child.issuer`
equals `parent.subject` *and* is non-empty (an empty issuer or subject
fails with its own emptiness message even when the two sides are
equal); when both sides are non-empty and differ, the failure is the
ChainBroken message. -/
theorem validateIssuerChain_spec (child parent : Claims) :
    ((validateIssuerChain child parent).valid = true ↔
      child.issuer = parent.subject ∧ child.issuer ≠ []) ∧
    (child.issuer ≠ [] → parent.subject ≠ [] →
      child.issuer ≠ parent.subject →
      validateIssuerChain child parent =
        ValidationResult.failure
          (chainBrokenMsg child.issuer parent.subject)) := by
  simp only [validateIssuerChain]
  split_ifs with h1 h2 h3
  · refine ⟨?_, fun hne _ _ => absurd h1 hne⟩
    simp [ValidationResult.failure, h1]
  · refine ⟨?_, fun _ hne _ => absurd h2 hne⟩
    simp only [ValidationResult.failure]
    constructor
    · intro hf
      exact absurd hf (by simp)
    · rintro ⟨heq, hne⟩
      exact absurd (heq.trans h2) hne
  · refine ⟨?_, fun _ _ _ => rfl⟩
    simp only [ValidationResult.failure]
    constructor
    · intro hf
      exact absurd hf (by simp)
    · rintro ⟨heq, -⟩
      exact absurd heq h3
  · push_neg at h3
    refine ⟨?_, fun _ _ hne => absurd h3 hne⟩
    simp [ValidationResult.success, h3, h1, h2]

/-- Witness for `validateIssuerChain_spec`: equal non-empty sides
succeed; distinct non-empty sides produce the ChainBroken failure. -/
theorem validateIssuerChain_spec_witness :
    (validateIssuerChain ⟨"AX".data, "OX".data, none, 0, 0⟩
        ⟨"OX".data, "OX".data, none, 0, 0⟩).valid = true ∧
      validateIssuerChain ⟨"AX".data, "OX".data, none, 0, 0⟩
          ⟨"OY".data, "OY".data, none, 0, 0⟩ =
        ValidationResult.failure (chainBrokenMsg "OX".data "OY".data) :=
  ⟨(validateIssuerChain_spec ⟨"AX".data, "OX".data, none, 0, 0⟩
        ⟨"OX".data, "OX".data, none, 0, 0⟩).1.mpr ⟨rfl, by decide⟩,
   (validateIssuerChain_spec ⟨"AX".data, "OX".data, none, 0, 0⟩
        ⟨"OY".data, "OY".data, none, 0, 0⟩).2
      (by decide) (by decide) (by decide)⟩

/-- C5: `validateKeyHierarchy` succeeds exactly when `child.issuer`
and `parent.subject` share the same first-character type prefix and
the subject-prefix pair is one of (O,O) with equal subjects, (A,O), or
(U,A); every other combination (including any empty field, which has
no first character) fails. -/
theorem validateKeyHierarchy_spec (child parent : Claims) :
    (validateKeyHierarchy child parent).valid = true ↔
      (∃ t, child.issuer.head? = some t ∧ parent.subject.head? = some t) ∧
      ((child.subject.head? = some 'O' ∧ parent.subject.head? = some 'O' ∧
          child.subject = parent.subject) ∨
        (child.subject.head? = some 'A' ∧ parent.subject.head? = some 'O') ∨
        (child.subject.head? = some 'U' ∧ parent.subject.head? = some 'A')) := by
  obtain ⟨cs, ci, cn, cia, ce⟩ := child
  obtain ⟨ps, pi, pn, pia, pe⟩ := parent
  simp only [validateKeyHierarchy]
  rcases cs with - | ⟨a, cs'⟩
  · rw [if_pos (Or.inl rfl)]
    simp [ValidationResult.failure]
  · rcases ci with - | ⟨b, ci'⟩
    · rw [if_pos (Or.inr (Or.inl rfl))]
      simp [ValidationResult.failure]
    · rcases ps with - | ⟨c, ps'⟩
      · rw [if_pos (Or.inr (Or.inr rfl))]
        simp [ValidationResult.failure]
      · rw [if_neg (by simp)]
        simp only [firstChar, List.head?_cons, Option.some.injEq]
        by_cases hip : b = c
        · subst hip
          rw [if_neg (by simp)]
          by_cases hOO : a = 'O' ∧ b = 'O'
          · rw [if_pos hOO]
            obtain ⟨rfl, rfl⟩ := hOO
            by_cases hsub : 'O' :: cs' = 'O' :: ps'
            · rw [if_neg (by simpa using hsub)]
              simp [ValidationResult.success, hsub]
            · rw [if_pos (by simpa using hsub)]
              simp [ValidationResult.failure, hsub]
          · rw [if_neg hOO]
            by_cases hAO : a = 'A' ∧ b = 'O'
            · rw [if_pos hAO]
              obtain ⟨rfl, rfl⟩ := hAO
              simp [ValidationResult.success]
            · rw [if_neg hAO]
              by_cases hUA : a = 'U' ∧ b = 'A'
              · rw [if_pos hUA]
                obtain ⟨rfl, rfl⟩ := hUA
                simp [ValidationResult.success]
              · rw [if_neg hUA]
                simp only [ValidationResult.failure]
                constructor
                · intro hf
                  exact absurd hf (by simp)
                · rintro ⟨-, ⟨ha, hb, -⟩ | ⟨ha, hb⟩ | ⟨ha, hb⟩⟩
                  · exact absurd ⟨ha, hb⟩ hOO
                  · exact absurd ⟨ha, hb⟩ hAO
                  · exact absurd ⟨ha, hb⟩ hUA
        · rw [if_pos (by simpa using hip)]
          simp only [ValidationResult.failure]
          constructor
          · intro hf
            exact absurd hf (by simp)
          · rintro ⟨⟨t, rfl, rfl⟩, -⟩
            exact absurd rfl hip

/-- Witness for `validateKeyHierarchy_spec`: an Account claim issued
by an Operator satisfies the (A,O) rule. -/
theorem validateKeyHierarchy_spec_witness :
    (validateKeyHierarchy ⟨"AX".data, "OX".data, none, 0, 0⟩
        ⟨"OX".data, "OX".data, none, 0, 0⟩).valid = true :=
  (validateKeyHierarchy_spec ⟨"AX".data, "OX".data, none, 0, 0⟩
      ⟨"OX".data, "OX".data, none, 0, 0⟩).mpr
    ⟨⟨'O', by decide, by decide⟩, Or.inr (Or.inl ⟨by decide, by decide⟩)⟩

theorem operator_validate_error_of_subject (o : OperatorClaimsImpl)
    (h : o.subject.head? ≠ some 'O') :
    ∃ e, OperatorClaims.validate o = .error e := by
  unfold OperatorClaims.validate
  by_cases h1 : o.subject = []
  · rw [if_pos h1]
    exact ⟨_, rfl⟩
  · rw [if_neg h1]
    by_cases h2 : o.issuer = []
    · rw [if_pos h2]
      exact ⟨_, rfl⟩
    · rw [if_neg h2]
      have hfc : firstChar o.subject ≠ 'O' := by
        cases hs : o.subject with
        | nil => exact absurd hs h1
        | cons s0 rest =>
          rw [hs] at h
          simp only [List.head?_cons, ne_eq, Option.some.injEq] at h
          simpa [firstChar] using h
      rw [if_pos hfc]
      exact ⟨_, rfl⟩

theorem account_validate_error_of_issuer (a : AccountClaimsImpl)
    (h : a.issuer.head? ≠ some 'O') :
    ∃ e, AccountClaims.validate a = .error e := by
  unfold AccountClaims.validate
  by_cases h1 : a.subject = []
  · rw [if_pos h1]
    exact ⟨_, rfl⟩
  · rw [if_neg h1]
    by_cases h2 : a.issuer = []
    · rw [if_pos h2]
      exact ⟨_, rfl⟩
    · rw [if_neg h2]
      by_cases h3 : firstChar a.subject ≠ 'A'
      · rw [if_pos h3]
        exact ⟨_, rfl⟩
      · rw [if_neg h3]
        have hfc : firstChar a.issuer ≠ 'O' := by
          cases hs : a.issuer with
          | nil => exact absurd hs h2
          | cons s0 rest =>
            rw [hs] at h
            simp only [List.head?_cons, ne_eq, Option.some.injEq] at h
            simpa [firstChar] using h
        rw [if_pos hfc]
        exact ⟨_, rfl⟩

theorem user_validate_error_of_issuer (u : UserClaimsImpl)
    (h : u.issuer.head? ≠ some 'A') :
    ∃ e, UserClaims.validate u = .error e := by
  unfold UserClaims.validate
  by_cases h1 : u.subject = []
  · rw [if_pos h1]
    exact ⟨_, rfl⟩
  · rw [if_neg h1]
    by_cases h2 : u.issuer = []
    · rw [if_pos h2]
      exact ⟨_, rfl⟩
    · rw [if_neg h2]
      by_cases h3 : firstChar u.subject ≠ 'U'
      · rw [if_pos h3]
        exact ⟨_, rfl⟩
      · rw [if_neg h3]
        have hfc : firstChar u.issuer ≠ 'A' := by
          cases hs : u.issuer with
          | nil => exact absurd hs h2
          | cons s0 rest =>
            rw [hs] at h
            simp only [List.head?_cons, ne_eq, Option.some.injEq] at h
            simpa [firstChar] using h
        rw [if_pos hfc]
        exact ⟨_, rfl⟩

/-- C4: encoding an `OperatorClaims` whose subject does not start with
`'O'`, an `AccountClaims` whose issuer does not start with `'O'`, or a
`UserClaims` whose issuer does not start with `'A'` fails with a
structural-validation error (`std::invalid_argument`), for every
signer `sign` — `validate()` runs and throws before `signData` is
reached, so the result does not depend on the signer at all. -/
theorem encode_rejects_wrong_type_head (o : OperatorClaimsImpl)
    (a : AccountClaimsImpl) (u : UserClaimsImpl) (seed jti : List Char)
    (now : Int) (sign : List Char → List Nat → List Nat) :
    (o.subject.head? ≠ some 'O' →
      ∃ e, (OperatorClaims.encode o seed jti now sign).1 = .error e) ∧
    (a.issuer.head? ≠ some 'O' →
      ∃ e, (AccountClaims.encode a seed jti now sign).1 = .error e) ∧
    (u.issuer.head? ≠ some 'A' →
      ∃ e, (UserClaims.encode u seed jti now sign).1 = .error e) := by
  refine ⟨fun h => ?_, fun h => ?_, fun h => ?_⟩
  · obtain ⟨e, he⟩ := operator_validate_error_of_subject o h
    exact ⟨e, by simp [OperatorClaims.encode, he]⟩
  · obtain ⟨e, he⟩ := account_validate_error_of_issuer a h
    exact ⟨e, by simp [AccountClaims.encode, he]⟩
  · obtain ⟨e, he⟩ := user_validate_error_of_issuer u h
    exact ⟨e, by simp [UserClaims.encode, he]⟩

/-- Witness for `encode_rejects_wrong_type_head` at concrete claims with an
`'X'`-subject operator, an account issued by an account, and a user
issued by an operator; the signer is the constant-empty function. -/
theorem encode_rejects_wrong_type_head_witness :
    (∃ e, (OperatorClaims.encode ⟨"XO".data, "OX".data, none, 0, 0, []⟩
      "SO".data "j".data 5 (fun _ _ => [])).1 = .error e) ∧
    (∃ e, (AccountClaims.encode ⟨"AX".data, "AY".data, none, 0, 0, []⟩
      "SA".data "j".data 5 (fun _ _ => [])).1 = .error e) ∧
    (∃ e, (UserClaims.encode ⟨"UX".data, "OX".data, none, 0, 0, none⟩
      "SU".data "j".data 5 (fun _ _ => [])).1 = .error e) :=
  ⟨(encode_rejects_wrong_type_head ⟨"XO".data, "OX".data, none, 0, 0, []⟩
      ⟨"AX".data, "AY".data, none, 0, 0, []⟩
      ⟨"UX".data, "OX".data, none, 0, 0, none⟩
      "SO".data "j".data 5 (fun _ _ => [])).1 (by decide),
   (encode_rejects_wrong_type_head ⟨"XO".data, "OX".data, none, 0, 0, []⟩
      ⟨"AX".data, "AY".data, none, 0, 0, []⟩
      ⟨"UX".data, "OX".data, none, 0, 0, none⟩
      "SA".data "j".data 5 (fun _ _ => [])).2.1 (by decide),
   (encode_rejects_wrong_type_head ⟨"XO".data, "OX".data, none, 0, 0, []⟩
      ⟨"AX".data, "AY".data, none, 0, 0, []⟩
      ⟨"UX".data, "OX".data, none, 0, 0, none⟩
      "SU".data "j".data 5 (fun _ _ => [])).2.2 (by decide)⟩

/-- C10: `encode` never mutates the claim record it is called on (the
state-passing embedding returns it unchanged in every branch — the C++
method is `const` and assigns no `impl_` member); in particular a
claim whose `issuedAt` was 0 still has `issuedAt = 0` afterwards even
though the emitted payload carries the clock reading `now` as `iat`;
and the emitted payload's `jti` is exactly the freshly generated value
of this call, so two encodes with distinct generated jtis yield
payloads with distinct jtis. -/
theorem encode_does_not_mutate (o : OperatorClaimsImpl)
    (u : UserClaimsImpl) (seed jti jtiNext : List Char) (now : Int)
    (sign : List Char → List Nat → List Nat) :
    (OperatorClaims.encode o seed jti now sign).2 = o ∧
    (UserClaims.encode u seed jti now sign).2 = u ∧
    (o.issuedAt = 0 →
      (operatorPayload o jti now).iat = now ∧
      (OperatorClaims.encode o seed jti now sign).2.issuedAt = 0) ∧
    (u.issuedAt = 0 →
      (userPayload u jti now).iat = now ∧
      (UserClaims.encode u seed jti now sign).2.issuedAt = 0) ∧
    (operatorPayload o jti now).jti = jti ∧
    (userPayload u jti now).jti = jti ∧
    (jti ≠ jtiNext →
      (operatorPayload o jti now).jti ≠ (operatorPayload o jtiNext now).jti) := by
  have ho : (OperatorClaims.encode o seed jti now sign).2 = o := by
    cases h : OperatorClaims.validate o <;>
      simp [OperatorClaims.encode, h]
  have hu : (UserClaims.encode u seed jti now sign).2 = u := by
    cases h : UserClaims.validate u <;>
      simp [UserClaims.encode, h]
  refine ⟨ho, hu, fun h0 => ⟨?_, by rw [ho]; exact h0⟩,
    fun h0 => ⟨?_, by rw [hu]; exact h0⟩, rfl, rfl, fun hne => ?_⟩
  · simp [operatorPayload, h0]
  · simp [userPayload, h0]
  · simpa [operatorPayload] using hne

/-- Witness for `encode_does_not_mutate` at concrete operator and user
claims with `issuedAt = 0` and two distinct jti values. -/
theorem encode_does_not_mutate_witness :
    (OperatorClaims.encode ⟨"OX".data, "OX".data, none, 0, 0, []⟩
        "SO".data "a1".data 42 (fun _ _ => [])).2 =
      ⟨"OX".data, "OX".data, none, 0, 0, []⟩ ∧
    (operatorPayload ⟨"OX".data, "OX".data, none, 0, 0, []⟩
      "a1".data 42).iat = 42 ∧
    (operatorPayload ⟨"OX".data, "OX".data, none, 0, 0, []⟩
        "a1".data 42).jti ≠
      (operatorPayload ⟨"OX".data, "OX".data, none, 0, 0, []⟩
        "b2".data 42).jti :=
  ⟨(encode_does_not_mutate ⟨"OX".data, "OX".data, none, 0, 0, []⟩
      ⟨"UX".data, "AX".data, none, 0, 0, none⟩ "SO".data "a1".data
      "b2".data 42 (fun _ _ => [])).1,
   ((encode_does_not_mutate ⟨"OX".data, "OX".data, none, 0, 0, []⟩
      ⟨"UX".data, "AX".data, none, 0, 0, none⟩ "SO".data "a1".data
      "b2".data 42 (fun _ _ => [])).2.2.1 (by decide)).1,
   (encode_does_not_mutate ⟨"OX".data, "OX".data, none, 0, 0, []⟩
      ⟨"UX".data, "AX".data, none, 0, 0, none⟩ "SO".data "a1".data
      "b2".data 42 (fun _ _ => [])).2.2.2.2.2.2 (by decide)⟩

/-- C2: `verify` is a total boolean function and every failure mode —
malformed token, base64 decode error, JSON parse error, missing `iss`
field, non-string `iss` (a `get<std::string>` throw), or any error
from signature verification — yields `false`; only a clean
`verifySignature` result is returned as the verdict. Quantified over
the external JSON parser and Ed25519 verifier. -/
theorem verify_never_throws
    (jsonParse : List Char →
      Except String (List (List Char × Option (List Char))))
    (pubVerify : List Char → List Nat → List Nat → Except String Bool)
    (jwt : List Char) :
    ((parseJwt jwt).isOk = false →
      verify jsonParse pubVerify jwt = false) ∧
    (∀ parts, parseJwt jwt = .ok parts →
      ((base64url_decode parts.payload_b64).isOk = false →
        verify jsonParse pubVerify jwt = false) ∧
      (∀ pb, base64url_decode parts.payload_b64 = .ok pb →
        ((jsonParse (bytesToChars pb)).isOk = false →
          verify jsonParse pubVerify jwt = false) ∧
        (∀ payload, jsonParse (bytesToChars pb) = .ok payload →
          (jsonContains payload "iss".data = false →
            verify jsonParse pubVerify jwt = false) ∧
          (∀ issuer, jsonGetString payload "iss".data = .ok issuer →
            jsonContains payload "iss".data = true →
            ((∃ e, verifySignature pubVerify issuer parts.signing_input
                parts.signature_b64 = .error e) →
              verify jsonParse pubVerify jwt = false) ∧
            (∀ b, verifySignature pubVerify issuer parts.signing_input
                parts.signature_b64 = .ok b →
              verify jsonParse pubVerify jwt = b)) ∧
          ((∃ e, jsonGetString payload "iss".data = .error e) →
            verify jsonParse pubVerify jwt = false)))) := by
  constructor
  · intro hpe
    cases hp : parseJwt jwt with
    | error e => simp [verify, hp]
    | ok parts => rw [hp, isOk_ok] at hpe; exact absurd hpe (by simp)
  · intro parts hp
    constructor
    · intro hde
      cases hd : base64url_decode parts.payload_b64 with
      | error e => simp [verify, hp, hd]
      | ok pb => rw [hd, isOk_ok] at hde; exact absurd hde (by simp)
    · intro pb hd
      constructor
      · intro hje
        cases hj : jsonParse (bytesToChars pb) with
        | error e => simp [verify, hp, hd, hj]
        | ok payload => rw [hj, isOk_ok] at hje; exact absurd hje (by simp)
      · intro payload hj
        refine ⟨fun hmiss => ?_, fun issuer hgs hcont => ⟨fun he => ?_, fun b hb => ?_⟩,
          fun he => ?_⟩
        · simp [verify, hp, hd, hj, hmiss]
        · obtain ⟨e, he⟩ := he
          simp [verify, hp, hd, hj, hcont, hgs, he]
        · simp [verify, hp, hd, hj, hcont, hgs, hb]
        · obtain ⟨e, he⟩ := he
          have hcont : jsonContains payload "iss".data = false ∨
              jsonContains payload "iss".data = true := by
            cases jsonContains payload "iss".data <;> simp
          rcases hcont with hc | hc
          · simp [verify, hp, hd, hj, hc]
          · simp [verify, hp, hd, hj, hc, he]

/-- Witness for `verify_never_throws` at concrete inputs: the
malformed token `"x"` yields `false` through the outer catch. -/
theorem verify_never_throws_witness :
    verify (fun _ => .error "parse error") (fun _ _ _ => .ok true)
      "x".data = false :=
  (verify_never_throws (fun _ => .error "parse error")
      (fun _ _ _ => .ok true) "x".data).1 (by decide)

end JwtCpp